import Mathlib

/-!
# seed-database.js (lunari, `usuario/infrastructure`)

A shallow embedding of the DynamoDB seed script and the properties of its
specification.

The script is sequential glue around three collaborators: the process
(`argv`, the environment, `process.exit`), the file system together with
`JSON.parse`, and the DynamoDB document client.  The collaborators are
inputs of the model (`World`); everything the script itself does — the
configuration, the existence probe, the insert loop with its `try`/`catch`,
the summary and the exit code — is translated from the source.  A run
produces the list of observable events in the order they happen.

The log lines are template literals, so building one converts the
interpolated values to strings.  That conversion happens inside the
`try`/`catch` of the loop and can throw, hence it is modelled too.
-/

namespace SeedDatabase

/-! ## Values -/

/-- A value produced by `JSON.parse`.  A number carries its JavaScript
string rendering (the only thing the script ever does with a number is to
interpolate it); an object carries its own properties, each name once. -/
inductive Json where
  | null
  | bool (b : Bool)
  | num (rendering : String)
  | str (s : String)
  | arr (items : List Json)
  | obj (members : List (String × Json))

/-- An exception value: the `name` and `message` of a JavaScript `Error`. -/
structure JsError where
  name : String
  message : String
  deriving DecidableEq, Repr

/-- A `TypeError` raised by the language runtime. -/
def typeError (message : String) : JsError :=
  { name := "TypeError", message := message }

/-- Own property lookup in the member list of a parsed object. -/
def ownProperty (key : String) : List (String × Json) → Option Json
  | [] => none
  | (k, v) :: rest => if k = key then some v else ownProperty key rest

mutual
/-- JavaScript `ToString` on a parsed JSON value.  Primitives never throw.
An array is joined with commas (`Array.prototype.toString`), which converts
the elements in turn.  A plain object yields `[object Object]` unless it has
an own property `toString`: a parsed value is never callable, so
`OrdinaryToPrimitive` skips it, `Object.prototype.valueOf` returns the
object itself, and a `TypeError` is thrown. -/
def Json.toJsString : Json → Except JsError String
  | .null => .ok "null"
  | .bool b => .ok (if b then "true" else "false")
  | .num rendering => .ok rendering
  | .str s => .ok s
  | .arr items => joinItems items
  | .obj members =>
    match ownProperty "toString" members with
    | some _ => .error (typeError "Cannot convert object to primitive value")
    | none => .ok "[object Object]"
/-- The body of `Array.prototype.join` with the default separator: a `null`
element contributes the empty string. -/
def joinItems : List Json → Except JsError String
  | [] => .ok ""
  | [x] => elementString x
  | x :: y :: rest =>
    match elementString x with
    | .error e => .error e
    | .ok s =>
      match joinItems (y :: rest) with
      | .error e => .error e
      | .ok t => .ok (s ++ "," ++ t)
/-- One element inside `join`. -/
def elementString : Json → Except JsError String
  | .null => .ok ""
  | .bool b => .ok (if b then "true" else "false")
  | .num rendering => .ok rendering
  | .str s => .ok s
  | .arr items => joinItems items
  | .obj members =>
    match ownProperty "toString" members with
    | some _ => .error (typeError "Cannot convert object to primitive value")
    | none => .ok "[object Object]"
end

/-- The value of `user.username` or `user.email`: reading a property of
`null` throws; a primitive or an array has no such property (`none` stands
for `undefined`); an object answers with its own property, and
`Object.prototype` defines neither name. -/
def Json.field (key : String) : Json → Except JsError (Option Json)
  | .null => .error (typeError ("Cannot read properties of null (reading \x27" ++ key ++ "\x27)"))
  | .obj members => .ok (ownProperty key members)
  | _ => .ok none

/-- `ToString` of a value that may be `undefined`. -/
def interpolate : Option Json → Except JsError String
  | none => .ok "undefined"
  | some v => v.toJsString

/-- Number of UTF-16 code units of a string (`String.prototype.length`). -/
def utf16Length (s : String) : Nat :=
  (s.data.map (fun c => if c.toNat < 65536 then 1 else 2)).sum

/-- The value of `seedData.length`. -/
def Json.lengthProperty : Json → Except JsError (Option Json)
  | .null => .error (typeError "Cannot read properties of null (reading \x27length\x27)")
  | .arr items => .ok (some (.num (toString items.length)))
  | .str s => .ok (some (.num (toString (utf16Length s))))
  | .obj members => .ok (ownProperty "length" members)
  | _ => .ok none

/-- The values `for (const user of seedData)` binds, in order: the elements
of an array, the code points of a string; anything else is not iterable. -/
def Json.iterate : Json → Except JsError (List Json)
  | .arr items => .ok items
  | .str s => .ok (s.data.map (fun c => Json.str (String.singleton c)))
  | _ => .error (typeError "seedData is not iterable")

/-! ## The collaborators -/

/-- Everything a run reads from outside the script. -/
structure World where
  /-- `process.argv`: the interpreter, the script, then the arguments. -/
  argv : List String
  /-- `process.env.AWS_REGION`. -/
  awsRegion : Option String
  /-- `__dirname`. -/
  dirname : String
  /-- Outcome of sending the `ScanCommand`: `none` when it resolves,
  `some e` when it rejects with `e`. -/
  scanOutcome : Option JsError
  /-- Outcome of `JSON.parse(fs.readFileSync(seedDataPath, 'utf8'))`: the
  parsed content of the seed file, or the exception of a file that is
  missing, unreadable or not valid JSON. -/
  seedFile : Except JsError Json
  /-- Outcome of sending the `PutCommand` of the record at a position of
  the seed sequence: `none` when it resolves, `some e` when it rejects. -/
  putOutcome : Nat → Option JsError

/-- What a run does that can be observed from outside, one constructor per
kind of effect.  A log event records the source line of the `log` call, a
put event the request together with the way it settled. -/
inductive Event where
  | log (line : Nat) (text : String)
  | consoleError (error : JsError)
  | scan (tableName : String) (limit : Nat)
  | readFile (dirname : String) (file : String)
  | put (tableName : String) (item : Json) (outcome : Option JsError)
  | exit (code : Nat)

/-! ## Configuration (lines 22–24) -/

/-- JavaScript `value || fallback` on a string that may be `undefined`:
`undefined` and the empty string are falsy. -/
def orElse (value : Option String) (fallback : String) : String :=
  match value with
  | none => fallback
  | some s => if s = "" then fallback else s

/-- Line 22: `process.env.AWS_REGION || 'us-east-1'`. -/
def REGION (w : World) : String := orElse w.awsRegion "us-east-1"

/-- Line 23: `process.argv[2] || 'dev'`. -/
def ENV (w : World) : String := orElse w.argv[2]? "dev"

/-- Line 24: the template literal `lunari-users-${ENV}`. -/
def TABLE_NAME (w : World) : String := "lunari-users-" ++ ENV w

/-! ## Console output (lines 31–42) -/

/-- The table `colors`; a missing entry interpolates as `undefined`. -/
def colors (color : String) : String :=
  if color = "reset" then "\x1b[0m"
  else if color = "green" then "\x1b[32m"
  else if color = "yellow" then "\x1b[33m"
  else if color = "red" then "\x1b[31m"
  else if color = "cyan" then "\x1b[36m"
  else if color = "gray" then "\x1b[90m"
  else "undefined"

/-- The event of `log(message, color)` called at source line `line`. -/
def log (line : Nat) (message : String) (color : String) : Event :=
  .log line (colors color ++ message ++ colors "reset")

/-! ## checkTableExists (lines 44–58) -/

/-- The probe: a `ScanCommand` on `TABLE_NAME` with `Limit: 1`.  It answers
`true` when the scan resolves, `false` when it rejects with the name
`ResourceNotFoundException`, and throws the error again otherwise. -/
def checkTableExists (w : World) : List Event × Except JsError Bool :=
  ([.scan (TABLE_NAME w) 1],
    match w.scanOutcome with
    | none => .ok true
    | some error =>
      if error.name = "ResourceNotFoundException" then .ok false else .error error)

/-! ## seedDatabase (lines 60–126) -/

/-- How the `async` function `seedDatabase` ends: it returns, it throws (the
promise rejects), or it ends the process itself through `process.exit`. -/
inductive Completion where
  | returned
  | threw (error : JsError)
  | exited (code : Nat)

/-- The substitution `${user.username}` of a template literal: read the
property, convert it to a string. -/
def usernameText (user : Json) : Except JsError String :=
  match user.field "username" with
  | .error e => .error e
  | .ok username => interpolate username

/-- The substitution `${user.email}`. -/
def emailText (user : Json) : Except JsError String :=
  match user.field "email" with
  | .error e => .error e
  | .ok email => interpolate email

/-- The message of line 102:
`  ✓ Inserted user: ${user.username} (${user.email})`. -/
def insertedMessage (user : Json) : Except JsError String :=
  match usernameText user with
  | .error e => .error e
  | .ok u =>
    match emailText user with
    | .error e => .error e
    | .ok m => .ok ("  ✓ Inserted user: " ++ u ++ " (" ++ m ++ ")")

/-- The message of line 105:
`  ✗ Failed to insert ${user.username}: ${error.message}`. -/
def failedMessage (user : Json) (error : JsError) : Except JsError String :=
  match usernameText user with
  | .error e => .error e
  | .ok u => .ok ("  ✗ Failed to insert " ++ u ++ ": " ++ error.message)

/-- The `catch (error)` block of the loop body (lines 104–107).  The result
is `.ok false` when the block completes (the caller then counts an error),
and the exception when building the message throws: nothing encloses the
block, so the exception leaves the loop. -/
def catchBlock (user : Json) (error : JsError) : List Event × Except JsError Bool :=
  match failedMessage user error with
  | .ok message => ([log 105 message "red"], .ok false)
  | .error e => ([], .error e)

/-- One iteration of the loop (lines 95–107) for the record at position
`i`.  The result is `.ok true` when the `try` block ran to its end
(`successCount++`), `.ok false` when the `catch` block ran to its end
(`errorCount++`). -/
def insertUser (w : World) (i : Nat) (user : Json) : List Event × Except JsError Bool :=
  let sent : Event := .put (TABLE_NAME w) user (w.putOutcome i)
  match w.putOutcome i with
  | some error =>
    let handled := catchBlock user error
    (sent :: handled.1, handled.2)
  | none =>
    match insertedMessage user with
    | .ok message => ([sent, log 102 message "green"], .ok true)
    | .error error =>
      let handled := catchBlock user error
      (sent :: handled.1, handled.2)

/-- The `for … of` loop (lines 94–108) over the records from position `i`
on, with the two counters; it yields the counters when it completes. -/
def insertLoop (w : World) :
    Nat → List Json → Nat → Nat → List Event × Except JsError (Nat × Nat)
  | _, [], successCount, errorCount => ([], .ok (successCount, errorCount))
  | i, user :: rest, successCount, errorCount =>
    let step := insertUser w i user
    match step.2 with
    | .error e => (step.1, .error e)
    | .ok true =>
      let tail := insertLoop w (i + 1) rest (successCount + 1) errorCount
      (step.1 ++ tail.1, tail.2)
    | .ok false =>
      let tail := insertLoop w (i + 1) rest successCount (errorCount + 1)
      (step.1 ++ tail.1, tail.2)

/-- The summary and the closing banner (lines 110–125). -/
def summary (w : World) (total : String) (successCount errorCount : Nat) : List Event :=
  [ log 111 "\n========================================" "cyan",
    log 112 "  Summary" "cyan",
    log 113 "========================================" "cyan",
    log 114 ("Total users: " ++ total) "gray",
    log 115 ("Successfully inserted: " ++ toString successCount) "green",
    log 116 ("Failed: " ++ toString errorCount) (if errorCount > 0 then "red" else "gray"),
    log 117 "========================================\n" "cyan" ] ++
  (if successCount > 0 then
    [ log 120 "✓ Database seeded successfully!\n" "green",
      log 121 "You can now query the data:" "gray",
      log 122 ("  aws dynamodb scan --table-name " ++ TABLE_NAME w ++ " --region " ++
        REGION w ++ "\n") "gray",
      log 123 "Or via the API:" "gray",
      log 124 "  curl http://your-api:8080/api/v1/users\n" "gray" ]
  else [])

/-- Lines 88–125: the insert loop over the loaded seed data, then the
summary.  `total` is the text of `seedData.length`. -/
def insertUsers (w : World) (seedData : Json) (total : String) : List Event × Completion :=
  let announce := log 89 "Inserting users into DynamoDB...\n" "yellow"
  match seedData.iterate with
  | .error e => ([announce], .threw e)
  | .ok users =>
    let loop := insertLoop w 0 users 0 0
    match loop.2 with
    | .error e => (announce :: loop.1, .threw e)
    | .ok (successCount, errorCount) =>
      (announce :: loop.1 ++ summary w total successCount errorCount, .returned)

/-- Lines 82–86 followed by the rest of the function: read the file, parse
it, report how many users were loaded. -/
def loadAndInsert (w : World) : List Event × Completion :=
  let announce := [log 83 "Loading seed data..." "yellow", Event.readFile w.dirname "seed-data.json"]
  match w.seedFile with
  | .error e => (announce, .threw e)
  | .ok seedData =>
    match seedData.lengthProperty with
    | .error e => (announce, .threw e)
    | .ok length =>
      match interpolate length with
      | .error e => (announce, .threw e)
      | .ok total =>
        let rest := insertUsers w seedData total
        (announce ++ log 86 ("✓ Loaded " ++ total ++ " users from seed-data.json\n") "green"
          :: rest.1, rest.2)

/-- The opening lines of the run (lines 61–70). -/
def header (w : World) : List Event :=
  [ log 61 "\n========================================" "cyan",
    log 62 "  DynamoDB Seed Script - LUNARi Users" "cyan",
    log 63 "========================================\n" "cyan",
    log 65 ("Environment: " ++ ENV w) "gray",
    log 66 ("Table Name: " ++ TABLE_NAME w) "gray",
    log 67 ("Region: " ++ REGION w ++ "\n") "gray",
    log 70 "Checking if table exists..." "yellow" ]

/-- The function `seedDatabase`: probe, then either the error lines and
`process.exit(1)`, or loading and inserting. -/
def seedDatabase (w : World) : List Event × Completion :=
  let probe := checkTableExists w
  match probe.2 with
  | .error e => (header w ++ probe.1, .threw e)
  | .ok false =>
    (header w ++ probe.1 ++
      [ log 74 ("ERROR: Table \x27" ++ TABLE_NAME w ++ "\x27 does not exist!") "red",
        log 75 "\nPlease create the table first:" "yellow",
        log 76 "  cd infrastructure" "gray",
        log 77 ("  ./deploy-dynamodb.sh " ++ ENV w ++ "\n") "gray" ],
      .exited 1)
  | .ok true =>
    let rest := loadAndInsert w
    (header w ++ probe.1 ++ log 80 "✓ Table exists\n" "green" :: rest.1, rest.2)

/-! ## The top-level run (lines 128–138) -/

/-- A finished run: the events in order, the last of which is the exit, and
the exit code. -/
structure Run where
  trace : List Event
  exitCode : Nat

/-- The statement `seedDatabase().then(…).catch(…)`.  After
`process.exit` inside `seedDatabase` no handler runs. -/
def main (w : World) : Run :=
  let body := seedDatabase w
  match body.2 with
  | .exited code => { trace := body.1 ++ [.exit code], exitCode := code }
  | .returned => { trace := body.1 ++ [log 131 "Done!" "green", .exit 0], exitCode := 0 }
  | .threw error =>
    { trace := body.1 ++ [log 135 ("\nERROR: " ++ error.message) "red", .consoleError error, .exit 1],
      exitCode := 1 }

/-! ## Reading a trace -/

/-- The insert requests of a trace, in order: table name and item. -/
def putsOf : List Event → List (String × Json)
  | [] => []
  | .put tableName item _ :: rest => (tableName, item) :: putsOf rest
  | _ :: rest => putsOf rest

/-- The probes of a trace, in order: table name and limit. -/
def scansOf : List Event → List (String × Nat)
  | [] => []
  | .scan tableName limit :: rest => (tableName, limit) :: scansOf rest
  | _ :: rest => scansOf rest

/-- The file reads of a trace. -/
def readsOf : List Event → List (String × String)
  | [] => []
  | .readFile dirname file :: rest => (dirname, file) :: readsOf rest
  | _ :: rest => readsOf rest

/-- The source lines of the `log` calls of a trace, in order. -/
def logLinesOf : List Event → List Nat
  | [] => []
  | .log line _ :: rest => line :: logLinesOf rest
  | _ :: rest => logLinesOf rest

/-- The items of the insert requests of a trace that resolved, in order. -/
def storedBy : List Event → List Json
  | [] => []
  | .put _ item none :: rest => item :: storedBy rest
  | _ :: rest => storedBy rest

/-- Whether a computation that may throw completes. -/
def succeeds {α : Type} : Except JsError α → Bool
  | .ok _ => true
  | .error _ => false

/-! ## The remote table -/

/-- Modelled from the spec: the contents of the remote table, one record at
most per key.  The table service is outside the repository; the
specification describes its write as insert-or-replace by key. -/
abbrev Table (κ : Type) := κ → Option Json

/-- Modelled from the spec: an insert-or-replace write, "creates the record
if absent or overwrites it entirely if a record with the same key already
exists".  `keyOf` is the key schema of the table. -/
def Table.insertOrReplace {κ : Type} [DecidableEq κ] (keyOf : Json → κ)
    (table : Table κ) (item : Json) : Table κ :=
  fun k => if k = keyOf item then some item else table k

/-- The table after a run of the script in world `w`: every insert request
that resolved has written its item. -/
def tableAfterRun {κ : Type} [DecidableEq κ] (keyOf : Json → κ) (w : World)
    (table : Table κ) : Table κ :=
  (storedBy (main w).trace).foldl (Table.insertOrReplace keyOf) table

/-! ## Sample worlds -/

/-- The first record of the scenario of the specification. -/
def alice : Json :=
  .obj [("username", .str "alice"), ("email", .str "a@x.com"), ("id", .str "1")]

/-- The second record of the scenario of the specification. -/
def bob : Json :=
  .obj [("username", .str "bob"), ("email", .str "b@x.com"), ("id", .str "2")]

/-- The scenario of the specification: the table exists, the seed file holds
alice and bob, every insert resolves. -/
def scenarioWorld : World :=
  { argv := ["node", "seed-database.js", "dev"]
    awsRegion := none
    dirname := "/app/usuario/infrastructure"
    scanOutcome := none
    seedFile := .ok (.arr [alice, bob])
    putOutcome := fun _ => none }

/-- A record whose email is an object with an own property `toString`. -/
def carol : Json :=
  .obj [("username", .str "carol"), ("email", .obj [("toString", .str "c@x.com")]), ("id", .str "3")]

/-- A record whose user name is an object with an own property `toString`. -/
def mallory : Json :=
  .obj [("username", .obj [("toString", .num "1")]), ("email", .str "m@x.com"), ("id", .str "0")]

/-- A rejection of the table service. -/
def validationException : JsError :=
  { name := "ValidationException", message := "One or more parameter values were invalid" }

/-- The table exists, the first insert is rejected, the second resolves. -/
def partialFailureWorld : World :=
  { scenarioWorld with putOutcome := fun i => if i = 0 then some validationException else none }

/-- The table exists and every insert is rejected. -/
def allRejectedWorld : World :=
  { scenarioWorld with putOutcome := fun _ => some validationException }

/-- The table exists and every insert resolves; the user name of the first
record is an object with an own property `toString`. -/
def unprintableNameWorld : World :=
  { scenarioWorld with seedFile := .ok (.arr [mallory, bob]) }

/-- The table exists and the insert resolves; the email of the only record
is an object with an own property `toString`. -/
def unprintableEmailWorld : World :=
  { scenarioWorld with seedFile := .ok (.arr [carol]) }

/-- The table exists and the seed file is the JSON text `[null]`. -/
def nullRecordWorld : World :=
  { scenarioWorld with
    seedFile := .ok (.arr [.null])
    putOutcome := fun _ => some validationException }

/-- The script is started with an empty first argument. -/
def emptyArgumentWorld : World :=
  { scenarioWorld with argv := ["node", "seed-database.js", ""] }

/-- The script is started as `node seed-database.js prod`. -/
def prodWorld : World :=
  { scenarioWorld with argv := ["node", "seed-database.js", "prod"] }

/-- The probe reports that the table does not exist. -/
def absentTableWorld : World :=
  { scenarioWorld with
    scanOutcome := some { name := "ResourceNotFoundException",
                          message := "Requested resource not found" } }

/-- The probe is refused for a reason other than a missing table. -/
def accessDeniedWorld : World :=
  { scenarioWorld with
    scanOutcome := some { name := "AccessDeniedException",
                          message := "User is not authorized to perform: dynamodb:Scan" } }

/-- The table exists and the seed file is missing. -/
def missingFileWorld : World :=
  { scenarioWorld with
    seedFile := .error { name := "Error",
                         message := "ENOENT: no such file or directory, open seed-data.json" } }

/-- Number of the first `n` records whose insert resolved. -/
def resolvedCount (w : World) (n : Nat) : Nat :=
  (List.range n).countP (fun i => (w.putOutcome i).isNone)

/-- Number of the first `n` records whose insert was rejected. -/
def rejectedCount (w : World) (n : Nat) : Nat :=
  (List.range n).countP (fun i => (w.putOutcome i).isSome)

/-- The banner of line 120. -/
def seededBanner : Event := log 120 "✓ Database seeded successfully!\n" "green"

/-! ## Shape of a run that reaches the loop -/

/-- The events before the loop when the table exists and the seed file has
loaded, `total` being the text of `seedData.length`. -/
def beforeLoop (w : World) (total : String) : List Event :=
  header w ++
    [ .scan (TABLE_NAME w) 1,
      log 80 "✓ Table exists\n" "green",
      log 83 "Loading seed data..." "yellow",
      .readFile w.dirname "seed-data.json",
      log 86 ("✓ Loaded " ++ total ++ " users from seed-data.json\n") "green",
      log 89 "Inserting users into DynamoDB...\n" "yellow" ]

/-! ## Reading a trace: elementary facts -/

@[simp] theorem putsOf_nil : putsOf [] = [] := rfl
@[simp] theorem putsOf_log (line : Nat) (message color : String) (rest : List Event) :
    putsOf (log line message color :: rest) = putsOf rest := rfl
@[simp] theorem putsOf_put (t : String) (item : Json) (o : Option JsError) (rest : List Event) :
    putsOf (.put t item o :: rest) = (t, item) :: putsOf rest := rfl
@[simp] theorem putsOf_scan (t : String) (n : Nat) (rest : List Event) :
    putsOf (.scan t n :: rest) = putsOf rest := rfl
@[simp] theorem putsOf_readFile (d f : String) (rest : List Event) :
    putsOf (.readFile d f :: rest) = putsOf rest := rfl
@[simp] theorem putsOf_exit (c : Nat) (rest : List Event) :
    putsOf (.exit c :: rest) = putsOf rest := rfl
@[simp] theorem putsOf_consoleError (e : JsError) (rest : List Event) :
    putsOf (.consoleError e :: rest) = putsOf rest := rfl

@[simp] theorem putsOf_append (a b : List Event) : putsOf (a ++ b) = putsOf a ++ putsOf b := by
  induction a with
  | nil => rfl
  | cons e rest ih => cases e <;> simp [putsOf, ih]

@[simp] theorem putsOf_summary (w : World) (total : String) (sc ec : Nat) :
    putsOf (summary w total sc ec) = [] := by
  by_cases h : 0 < sc <;> simp [summary, h]

theorem putsOf_insertUser (w : World) (i : Nat) (user : Json) :
    putsOf (insertUser w i user).1 = [(TABLE_NAME w, user)] := by
  unfold insertUser catchBlock
  split
  · split <;> simp
  · split
    · simp
    · split <;> simp

theorem insertLoop_puts_prefix (w : World) (xs : List Json) :
    ∀ i sc ec, putsOf (insertLoop w i xs sc ec).1 <+: xs.map (fun user => (TABLE_NAME w, user)) := by
  induction xs with
  | nil => intro i sc ec; simp [insertLoop]
  | cons user rest ih =>
    intro i sc ec
    have hput := putsOf_insertUser w i user
    unfold insertLoop
    simp only []
    split
    · rw [hput]; simp
    · simp only [putsOf_append, hput, List.map_cons, List.singleton_append]
      exact (List.prefix_cons_inj _).2 (ih _ _ _)
    · simp only [putsOf_append, hput, List.map_cons, List.singleton_append]
      exact (List.prefix_cons_inj _).2 (ih _ _ _)

/-- When the user name of a record converts to a string, the iteration for
the record completes: the `catch` block cannot throw. -/
theorem insertUser_completes (w : World) (i : Nat) (user : Json)
    (h : succeeds (usernameText user) = true) : ∃ b, (insertUser w i user).2 = .ok b := by
  unfold insertUser catchBlock failedMessage insertedMessage
  cases hu : usernameText user with
  | error e => simp [hu, succeeds] at h
  | ok u =>
    cases w.putOutcome i with
    | some error => simp
    | none => cases emailText user <;> simp

theorem insertLoop_puts (w : World) (xs : List Json)
    (h : ∀ user ∈ xs, succeeds (usernameText user) = true) :
    ∀ i sc ec, putsOf (insertLoop w i xs sc ec).1 = xs.map (fun user => (TABLE_NAME w, user)) ∧
      ∃ sc1 ec1, (insertLoop w i xs sc ec).2 = .ok (sc1, ec1) := by
  induction xs with
  | nil => intro i sc ec; simp [insertLoop]
  | cons user rest ih =>
    intro i sc ec
    have hput := putsOf_insertUser w i user
    obtain ⟨b, hb⟩ := insertUser_completes w i user (h user (by simp))
    have ih1 := ih (fun u hu => h u (by simp [hu]))
    unfold insertLoop
    simp only [hb]
    cases b with
    | true =>
      simp only [putsOf_append, hput, List.map_cons, List.singleton_append]
      exact ⟨by rw [(ih1 _ _ _).1], (ih1 _ _ _).2⟩
    | false =>
      simp only [putsOf_append, hput, List.map_cons, List.singleton_append]
      exact ⟨by rw [(ih1 _ _ _).1], (ih1 _ _ _).2⟩

theorem seedDatabase_of_array (w : World) (xs : List Json)
    (hscan : w.scanOutcome = none) (hfile : w.seedFile = .ok (.arr xs)) :
    seedDatabase w =
      match (insertLoop w 0 xs 0 0).2 with
      | .ok (sc, ec) =>
        (beforeLoop w (toString xs.length) ++ (insertLoop w 0 xs 0 0).1 ++
          summary w (toString xs.length) sc ec, .returned)
      | .error e => (beforeLoop w (toString xs.length) ++ (insertLoop w 0 xs 0 0).1, .threw e) := by
  unfold seedDatabase checkTableExists loadAndInsert insertUsers beforeLoop
  simp only [hscan, hfile, Json.lengthProperty, interpolate, Json.toJsString, Json.iterate]
  cases (insertLoop w 0 xs 0 0).2 with
  | error e => simp
  | ok r => obtain ⟨sc, ec⟩ := r; simp

@[simp] theorem putsOf_header (w : World) : putsOf (header w) = [] := rfl

@[simp] theorem putsOf_beforeLoop (w : World) (total : String) :
    putsOf (beforeLoop w total) = [] := rfl

theorem putsOf_main_of_array (w : World) (xs : List Json)
    (hscan : w.scanOutcome = none) (hfile : w.seedFile = .ok (.arr xs)) :
    putsOf (main w).trace = putsOf (insertLoop w 0 xs 0 0).1 := by
  unfold main
  rw [seedDatabase_of_array w xs hscan hfile]
  cases (insertLoop w 0 xs 0 0).2 with
  | error e => simp
  | ok r => obtain ⟨sc, ec⟩ := r; simp

theorem exitCode_of_array (w : World) (xs : List Json)
    (hscan : w.scanOutcome = none) (hfile : w.seedFile = .ok (.arr xs)) :
    (main w).exitCode = if succeeds (insertLoop w 0 xs 0 0).2 then 0 else 1 := by
  unfold main
  rw [seedDatabase_of_array w xs hscan hfile]
  cases (insertLoop w 0 xs 0 0).2 with
  | error e => simp [succeeds]
  | ok r => obtain ⟨sc, ec⟩ := r; simp [succeeds]

@[simp] theorem scansOf_nil : scansOf [] = [] := rfl
@[simp] theorem scansOf_log (line : Nat) (message color : String) (rest : List Event) :
    scansOf (log line message color :: rest) = scansOf rest := rfl
@[simp] theorem scansOf_put (t : String) (item : Json) (o : Option JsError) (rest : List Event) :
    scansOf (.put t item o :: rest) = scansOf rest := rfl
@[simp] theorem scansOf_scan (t : String) (n : Nat) (rest : List Event) :
    scansOf (.scan t n :: rest) = (t, n) :: scansOf rest := rfl
@[simp] theorem scansOf_readFile (d f : String) (rest : List Event) :
    scansOf (.readFile d f :: rest) = scansOf rest := rfl
@[simp] theorem scansOf_exit (c : Nat) (rest : List Event) :
    scansOf (.exit c :: rest) = scansOf rest := rfl
@[simp] theorem scansOf_consoleError (e : JsError) (rest : List Event) :
    scansOf (.consoleError e :: rest) = scansOf rest := rfl

@[simp] theorem scansOf_append (a b : List Event) : scansOf (a ++ b) = scansOf a ++ scansOf b := by
  induction a with
  | nil => rfl
  | cons e rest ih => cases e <;> simp [scansOf, ih]

@[simp] theorem scansOf_header (w : World) : scansOf (header w) = [] := rfl

@[simp] theorem scansOf_summary (w : World) (total : String) (sc ec : Nat) :
    scansOf (summary w total sc ec) = [] := by
  by_cases h : 0 < sc <;> simp [summary, h]

theorem scansOf_insertUser (w : World) (i : Nat) (user : Json) :
    scansOf (insertUser w i user).1 = [] := by
  unfold insertUser catchBlock
  split
  · split <;> simp
  · split
    · simp
    · split <;> simp

theorem scansOf_insertLoop (w : World) (xs : List Json) :
    ∀ i sc ec, scansOf (insertLoop w i xs sc ec).1 = [] := by
  induction xs with
  | nil => intro i sc ec; simp [insertLoop]
  | cons user rest ih =>
    intro i sc ec
    have hscan := scansOf_insertUser w i user
    unfold insertLoop
    simp only []
    split <;> simp [hscan, ih]

theorem scansOf_main (w : World) : scansOf (main w).trace = [(TABLE_NAME w, 1)] := by
  have hloop := scansOf_insertLoop w
  unfold main seedDatabase checkTableExists loadAndInsert insertUsers
  cases w.scanOutcome with
  | some error =>
    by_cases hname : error.name = "ResourceNotFoundException" <;> simp [hname]
  | none =>
    simp only []
    cases w.seedFile with
    | error e => simp
    | ok seedData =>
      simp only []
      cases seedData.lengthProperty with
      | error e => simp
      | ok length =>
        simp only []
        cases interpolate length with
        | error e => simp
        | ok total =>
          simp only []
          cases seedData.iterate with
          | error e => simp
          | ok users =>
            simp only []
            cases hres : (insertLoop w 0 users 0 0).2 with
            | error e => simp [hloop]
            | ok r => obtain ⟨sc, ec⟩ := r; simp [hloop]

/-! ## Runs that stop before the loop -/

theorem main_of_table_absent (w : World) (e : JsError) (hprobe : w.scanOutcome = some e)
    (hname : e.name = "ResourceNotFoundException") :
    main w =
      { trace := header w ++
          [ .scan (TABLE_NAME w) 1,
            log 74 ("ERROR: Table \x27" ++ TABLE_NAME w ++ "\x27 does not exist!") "red",
            log 75 "\nPlease create the table first:" "yellow",
            log 76 "  cd infrastructure" "gray",
            log 77 ("  ./deploy-dynamodb.sh " ++ ENV w ++ "\n") "gray",
            .exit 1 ],
        exitCode := 1 } := by
  unfold main seedDatabase checkTableExists
  simp [hprobe, hname]

theorem main_of_probe_failure (w : World) (e : JsError) (hprobe : w.scanOutcome = some e)
    (hname : e.name ≠ "ResourceNotFoundException") :
    main w =
      { trace := header w ++
          [ .scan (TABLE_NAME w) 1,
            log 135 ("\nERROR: " ++ e.message) "red",
            .consoleError e,
            .exit 1 ],
        exitCode := 1 } := by
  unfold main seedDatabase checkTableExists
  simp [hprobe, hname]

theorem main_of_load_failure (w : World) (e : JsError) (hscan : w.scanOutcome = none)
    (hfile : w.seedFile = .error e) :
    main w =
      { trace := header w ++
          [ .scan (TABLE_NAME w) 1,
            log 80 "✓ Table exists\n" "green",
            log 83 "Loading seed data..." "yellow",
            .readFile w.dirname "seed-data.json",
            log 135 ("\nERROR: " ++ e.message) "red",
            .consoleError e,
            .exit 1 ],
        exitCode := 1 } := by
  unfold main seedDatabase checkTableExists loadAndInsert
  simp [hscan, hfile]

/-! ## The remote table: last write wins -/

theorem foldl_insertOrReplace_of_not_mem {κ : Type} [DecidableEq κ] (keyOf : Json → κ)
    (items : List Json) (k : κ) (hk : k ∉ items.map keyOf) :
    ∀ table : Table κ, (items.foldl (Table.insertOrReplace keyOf) table) k = table k := by
  induction items with
  | nil => intro table; rfl
  | cons x rest ih =>
    intro table
    simp only [List.map_cons, List.mem_cons, not_or] at hk
    rw [List.foldl_cons, ih hk.2]
    simp [Table.insertOrReplace, hk.1]

theorem foldl_insertOrReplace_of_mem {κ : Type} [DecidableEq κ] (keyOf : Json → κ)
    (items : List Json) (k : κ) (hk : k ∈ items.map keyOf) :
    ∀ t1 t2 : Table κ, (items.foldl (Table.insertOrReplace keyOf) t1) k =
      (items.foldl (Table.insertOrReplace keyOf) t2) k := by
  induction items with
  | nil => simp at hk
  | cons x rest ih =>
    intro t1 t2
    rw [List.foldl_cons, List.foldl_cons]
    by_cases hrest : k ∈ rest.map keyOf
    · exact ih hrest _ _
    · have hx : k = keyOf x := by
        simp only [List.map_cons, List.mem_cons] at hk
        rcases hk with hk | hk
        · exact hk
        · exact absurd hk hrest
      rw [foldl_insertOrReplace_of_not_mem keyOf rest k hrest,
        foldl_insertOrReplace_of_not_mem keyOf rest k hrest]
      simp [Table.insertOrReplace, hx]

theorem foldl_insertOrReplace_twice {κ : Type} [DecidableEq κ] (keyOf : Json → κ)
    (items : List Json) (table : Table κ) :
    items.foldl (Table.insertOrReplace keyOf) (items.foldl (Table.insertOrReplace keyOf) table) =
      items.foldl (Table.insertOrReplace keyOf) table := by
  funext k
  by_cases hk : k ∈ items.map keyOf
  · exact foldl_insertOrReplace_of_mem keyOf items k hk _ _
  · rw [foldl_insertOrReplace_of_not_mem keyOf items k hk]

/-! ## The counters -/

theorem insertLoop_counters (w : World) (xs : List Json) :
    ∀ i sc ec sc1 ec1, (insertLoop w i xs sc ec).2 = .ok (sc1, ec1) →
      sc1 + ec1 = sc + ec + xs.length := by
  induction xs with
  | nil =>
    intro i sc ec sc1 ec1 h
    simp only [insertLoop, Except.ok.injEq, Prod.mk.injEq] at h
    simp [← h.1, ← h.2]
  | cons user rest ih =>
    intro i sc ec sc1 ec1 h
    unfold insertLoop at h
    simp only [] at h
    split at h
    · simp at h
    · have := ih _ _ _ _ _ h
      simp only [List.length_cons]; omega
    · have := ih _ _ _ _ _ h
      simp only [List.length_cons]; omega

/-- When user name and email of a record convert to strings, the iteration
ends in the `try` block exactly when the insert resolved. -/
theorem insertUser_of_printable (w : World) (i : Nat) (user : Json)
    (hu : succeeds (usernameText user) = true) (he : succeeds (emailText user) = true) :
    (insertUser w i user).2 = .ok (w.putOutcome i).isNone := by
  unfold insertUser catchBlock failedMessage insertedMessage
  cases hun : usernameText user with
  | error e => simp [hun, succeeds] at hu
  | ok u =>
    cases hem : emailText user with
    | error e => simp [hem, succeeds] at he
    | ok m => cases w.putOutcome i <;> simp

theorem insertLoop_of_printable (w : World) (xs : List Json)
    (h : ∀ user ∈ xs, succeeds (usernameText user) = true ∧ succeeds (emailText user) = true) :
    ∀ i sc ec, (insertLoop w i xs sc ec).2 =
      .ok (sc + (List.range' i xs.length).countP (fun j => (w.putOutcome j).isNone),
           ec + (List.range' i xs.length).countP (fun j => (w.putOutcome j).isSome)) := by
  induction xs with
  | nil => intro i sc ec; simp [insertLoop]
  | cons user rest ih =>
    intro i sc ec
    have hstep := insertUser_of_printable w i user (h user (by simp)).1 (h user (by simp)).2
    have ih1 := ih (fun u hu => h u (by simp [hu]))
    unfold insertLoop
    simp only [hstep, List.length_cons, List.range'_succ, List.countP_cons]
    cases hout : w.putOutcome i with
    | none => simp [ih1, Nat.add_assoc, Nat.add_comm]
    | some e => simp [ih1, Nat.add_assoc, Nat.add_comm]

/-! ## Where the banner can come from -/

theorem log_mem_insertUser (w : World) (i : Nat) (user : Json) (l : Nat) (t : String)
    (h : Event.log l t ∈ (insertUser w i user).1) : l = 102 ∨ l = 105 := by
  revert h
  unfold insertUser catchBlock
  split
  · split <;> (simp [log]; try (intro h _; simp [h]))
  · split
    · simp [log]; intro h _; simp [h]
    · split <;> (simp [log]; try (intro h _; simp [h]))

theorem log_mem_insertLoop (w : World) (xs : List Json) (l : Nat) (t : String) :
    ∀ i sc ec, Event.log l t ∈ (insertLoop w i xs sc ec).1 → l = 102 ∨ l = 105 := by
  induction xs with
  | nil => intro i sc ec h; simp [insertLoop] at h
  | cons user rest ih =>
    intro i sc ec h
    unfold insertLoop at h
    simp only [] at h
    split at h
    · exact log_mem_insertUser w i user l t h
    · rcases List.mem_append.1 h with h | h
      · exact log_mem_insertUser w i user l t h
      · exact ih _ _ _ h
    · rcases List.mem_append.1 h with h | h
      · exact log_mem_insertUser w i user l t h
      · exact ih _ _ _ h

theorem seededBanner_not_mem_insertLoop (w : World) (xs : List Json) (i sc ec : Nat) :
    seededBanner ∉ (insertLoop w i xs sc ec).1 := by
  intro h
  have := log_mem_insertLoop w xs 120 _ i sc ec h
  omega

theorem seededBanner_mem_summary (w : World) (total : String) (sc ec : Nat) :
    seededBanner ∈ summary w total sc ec ↔ 0 < sc := by
  by_cases h : 0 < sc <;> simp [summary, h, seededBanner, log]

theorem seededBanner_not_mem_beforeLoop (w : World) (total : String) :
    seededBanner ∉ beforeLoop w total := by
  simp [beforeLoop, header, seededBanner, log]

/-- The run when the table exists, the seed file is an array and the loop
has completed with the counters `sc` and `ec`. -/
theorem main_of_completed_loop (w : World) (xs : List Json) (sc ec : Nat)
    (hscan : w.scanOutcome = none) (hfile : w.seedFile = .ok (.arr xs))
    (hloop : (insertLoop w 0 xs 0 0).2 = .ok (sc, ec)) :
    main w =
      { trace := beforeLoop w (toString xs.length) ++ (insertLoop w 0 xs 0 0).1 ++
          summary w (toString xs.length) sc ec ++ [log 131 "Done!" "green", .exit 0],
        exitCode := 0 } := by
  unfold main
  rw [seedDatabase_of_array w xs hscan hfile, hloop]

theorem seededBanner_mem_main (w : World) (xs : List Json) (sc ec : Nat)
    (hscan : w.scanOutcome = none) (hfile : w.seedFile = .ok (.arr xs))
    (hloop : (insertLoop w 0 xs 0 0).2 = .ok (sc, ec)) :
    seededBanner ∈ (main w).trace ↔ 0 < sc := by
  rw [main_of_completed_loop w xs sc ec hscan hfile hloop]
  simp only [List.mem_append, seededBanner_mem_summary,
    seededBanner_not_mem_insertLoop, seededBanner_not_mem_beforeLoop, false_or]
  constructor
  · rintro (h | h)
    · exact h
    · simp [seededBanner, log] at h
  · exact fun h => Or.inl h

/-! ## Runs never exit inside the loading and inserting part -/

theorem loadAndInsert_not_exited (w : World) (code : Nat) :
    (loadAndInsert w).2 ≠ .exited code := by
  unfold loadAndInsert insertUsers
  cases w.seedFile with
  | error e => simp
  | ok seedData =>
    simp only []
    cases seedData.lengthProperty with
    | error e => simp
    | ok length =>
      simp only []
      cases interpolate length with
      | error e => simp
      | ok total =>
        simp only []
        cases seedData.iterate with
        | error e => simp
        | ok users =>
          simp only []
          cases (insertLoop w 0 users 0 0).2 with
          | error e => simp
          | ok r => obtain ⟨sc, ec⟩ := r; simp

theorem exitCode_one_cases (w : World) (h : (main w).exitCode = 1) :
    (checkTableExists w).2 = .ok false ∨ ∃ e, (seedDatabase w).2 = .threw e := by
  unfold main at h
  cases hbody : (seedDatabase w).2 with
  | returned => simp [hbody] at h
  | threw e => exact Or.inr ⟨e, rfl⟩
  | exited code =>
    left
    unfold seedDatabase at hbody
    cases hprobe : (checkTableExists w).2 with
    | error e => simp [hprobe] at hbody
    | ok b =>
      cases b with
      | false => rfl
      | true =>
        simp only [hprobe] at hbody
        exact absurd hbody (loadAndInsert_not_exited w code)

/-! ## The claims -/

/-- C2. When the existence probe fails with `ResourceNotFoundException`,
`checkTableExists` returns `false`, the run sends no insert request and does
not read the seed file, and the process exits with code 1. -/
theorem seedDatabase_table_absent (w : World) (e : JsError)
    (hprobe : w.scanOutcome = some e) (hname : e.name = "ResourceNotFoundException") :
    (checkTableExists w).2 = .ok false ∧ putsOf (main w).trace = [] ∧
      readsOf (main w).trace = [] ∧ (main w).exitCode = 1 ∧
      (main w).trace.getLast? = some (.exit 1) := by
  refine ⟨by simp [checkTableExists, hprobe, hname], ?_, ?_, ?_, ?_⟩ <;>
    rw [main_of_table_absent w e hprobe hname] <;> rfl

theorem seedDatabase_table_absent_witness :
    absentTableWorld.scanOutcome =
        some { name := "ResourceNotFoundException", message := "Requested resource not found" } ∧
      (checkTableExists absentTableWorld).2 = .ok false ∧
      putsOf (main absentTableWorld).trace = [] ∧
      readsOf (main absentTableWorld).trace = [] ∧
      (main absentTableWorld).exitCode = 1 ∧
      (main absentTableWorld).trace.getLast? = some (.exit 1) :=
  ⟨rfl, seedDatabase_table_absent absentTableWorld _ rfl rfl⟩

/-- C7. When the existence probe fails with an error whose name is not
`ResourceNotFoundException`, `checkTableExists` throws that same error, the
run sends no insert request and the process exits with code 1.  Moreover
`checkTableExists` returns `true` exactly when the probe succeeds and
`false` exactly when the probe fails with `ResourceNotFoundException`. -/
theorem checkTableExists_other_failure (w : World) (e : JsError)
    (hprobe : w.scanOutcome = some e) (hname : e.name ≠ "ResourceNotFoundException") :
    (checkTableExists w).2 = .error e ∧ (seedDatabase w).2 = .threw e ∧
      putsOf (main w).trace = [] ∧ (main w).exitCode = 1 ∧
      (∀ v : World, (checkTableExists v).2 = .ok true ↔ v.scanOutcome = none) ∧
      (∀ v : World, (checkTableExists v).2 = .ok false ↔
        ∃ error, v.scanOutcome = some error ∧ error.name = "ResourceNotFoundException") := by
  refine ⟨by simp [checkTableExists, hprobe, hname],
    by simp [seedDatabase, checkTableExists, hprobe, hname], ?_, ?_, ?_, ?_⟩
  · rw [main_of_probe_failure w e hprobe hname]; rfl
  · rw [main_of_probe_failure w e hprobe hname]
  · intro v
    unfold checkTableExists
    cases v.scanOutcome with
    | none => simp
    | some error => by_cases h : error.name = "ResourceNotFoundException" <;> simp [h]
  · intro v
    unfold checkTableExists
    cases v.scanOutcome with
    | none => simp
    | some error => by_cases h : error.name = "ResourceNotFoundException" <;> simp [h]

theorem checkTableExists_other_failure_witness :
    (checkTableExists accessDeniedWorld).2 =
        .error { name := "AccessDeniedException",
                 message := "User is not authorized to perform: dynamodb:Scan" } ∧
      putsOf (main accessDeniedWorld).trace = [] ∧ (main accessDeniedWorld).exitCode = 1 :=
  have h := checkTableExists_other_failure accessDeniedWorld _ rfl (by decide)
  ⟨h.1, h.2.2.1, h.2.2.2.1⟩

/-- C8. When the table exists and loading the seed file throws (the file is
missing, unreadable or not valid JSON), the run aborts with that exception:
no insert request has been sent and the process exits with code 1. -/
theorem seedDatabase_load_failure (w : World) (e : JsError)
    (hscan : w.scanOutcome = none) (hfile : w.seedFile = .error e) :
    (seedDatabase w).2 = .threw e ∧ putsOf (main w).trace = [] ∧ (main w).exitCode = 1 := by
  refine ⟨by simp [seedDatabase, checkTableExists, loadAndInsert, hscan, hfile], ?_, ?_⟩
  · rw [main_of_load_failure w e hscan hfile]; rfl
  · rw [main_of_load_failure w e hscan hfile]

theorem seedDatabase_load_failure_witness :
    missingFileWorld.scanOutcome = none ∧
      putsOf (main missingFileWorld).trace = [] ∧ (main missingFileWorld).exitCode = 1 :=
  ⟨rfl, (seedDatabase_load_failure missingFileWorld _ rfl rfl).2⟩

/-- C9. The existence probe is a scan of the derived table name with
`Limit` 1, and when the seed file is an array the insert requests that are
sent carry, position by position, the derived table name as `TableName` and
the record itself as `Item`. -/
theorem requests_carry_table_and_record (w : World) (xs : List Json)
    (hfile : w.seedFile = .ok (.arr xs)) :
    scansOf (main w).trace = [(TABLE_NAME w, 1)] ∧
      putsOf (main w).trace <+: xs.map (fun user => (TABLE_NAME w, user)) := by
  refine ⟨scansOf_main w, ?_⟩
  cases hscan : w.scanOutcome with
  | none =>
    rw [putsOf_main_of_array w xs hscan hfile]
    exact insertLoop_puts_prefix w xs 0 0 0
  | some e =>
    by_cases hname : e.name = "ResourceNotFoundException"
    · rw [main_of_table_absent w e hscan hname]
      exact List.nil_prefix
    · rw [main_of_probe_failure w e hscan hname]
      exact List.nil_prefix

theorem requests_carry_table_and_record_witness :
    scansOf (main partialFailureWorld).trace = [("lunari-users-dev", 1)] ∧
      putsOf (main partialFailureWorld).trace <+:
        [alice, bob].map (fun user => ("lunari-users-dev", user)) :=
  requests_carry_table_and_record partialFailureWorld [alice, bob] rfl

/-- C5, amended. For every non-empty first command-line argument `E` the
table name is `lunari-users-` followed by `E`; without an argument, and
with the empty string as argument, it is `lunari-users-dev`. -/
theorem TABLE_NAME_of_argument (w : World) (E : String)
    (harg : w.argv[2]? = some E) (hne : E ≠ "") :
    TABLE_NAME w = "lunari-users-" ++ E ∧
      (∀ v : World, v.argv[2]? = none ∨ v.argv[2]? = some "" →
        TABLE_NAME v = "lunari-users-dev") := by
  refine ⟨by simp [TABLE_NAME, ENV, orElse, harg, hne], ?_⟩
  intro v hv
  rcases hv with hv | hv <;> simp [TABLE_NAME, ENV, orElse, hv]

theorem TABLE_NAME_of_argument_witness :
    prodWorld.argv[2]? = some "prod" ∧ TABLE_NAME prodWorld = "lunari-users-" ++ "prod" :=
  ⟨rfl, (TABLE_NAME_of_argument prodWorld "prod" rfl (by decide)).1⟩

/-- C5 as stated fails for the empty argument: `node seed-database.js ""`
passes `E = ""`, and the table name is `lunari-users-dev`, not
`lunari-users-`. -/
theorem TABLE_NAME_empty_argument :
    emptyArgumentWorld.argv[2]? = some "" ∧
      TABLE_NAME emptyArgumentWorld = "lunari-users-dev" ∧
      TABLE_NAME emptyArgumentWorld ≠ "lunari-users-" ++ "" := by
  refine ⟨rfl, rfl, by decide⟩

/-- C1, amended. When the table exists and the seed file is an array of
records whose user names convert to strings, the run sends exactly one
insert request per record, in the order of the file, whatever the outcome of
each insert: a rejected insert does not stop the later ones. -/
theorem seedDatabase_attempts_every_record (w : World) (xs : List Json)
    (hscan : w.scanOutcome = none) (hfile : w.seedFile = .ok (.arr xs))
    (hname : ∀ user ∈ xs, succeeds (usernameText user) = true) :
    putsOf (main w).trace = xs.map (fun user => (TABLE_NAME w, user)) := by
  rw [putsOf_main_of_array w xs hscan hfile]
  exact (insertLoop_puts w xs hname 0 0 0).1

theorem seedDatabase_attempts_every_record_witness :
    partialFailureWorld.putOutcome 0 = some validationException ∧
      putsOf (main partialFailureWorld).trace =
        [alice, bob].map (fun user => (TABLE_NAME partialFailureWorld, user)) :=
  ⟨rfl, seedDatabase_attempts_every_record partialFailureWorld [alice, bob] rfl rfl (by decide)⟩

/-- C1 as stated fails: with two records and every insert resolving, the run
sends one insert request only when the user name of the first record is an
object with an own property `toString`.  Building the log line of the
record throws inside `try`, then again inside `catch`, and the exception
leaves the loop. -/
theorem seedDatabase_attempts_stop_at_unprintable_name :
    unprintableNameWorld.scanOutcome = none ∧
      unprintableNameWorld.seedFile = .ok (.arr [mallory, bob]) ∧
      unprintableNameWorld.putOutcome 0 = none ∧
      unprintableNameWorld.putOutcome 1 = none ∧
      putsOf (main unprintableNameWorld).trace = [("lunari-users-dev", mallory)] ∧
      putsOf (main unprintableNameWorld).trace ≠
        [mallory, bob].map (fun user => (TABLE_NAME unprintableNameWorld, user)) :=
  ⟨rfl, rfl, rfl, rfl, rfl, fun h => absurd (congrArg List.length h) (by decide)⟩

/-- C3. Whenever the insert loop over a seed array completes, the two
counters add up to the number of records, which is the total the summary
reports; the summary with these numbers ends the output of `seedDatabase`.
The loop does complete when the user name of every record converts to a
string. -/
theorem counters_add_up (w : World) (xs : List Json) (sc ec : Nat)
    (hscan : w.scanOutcome = none) (hfile : w.seedFile = .ok (.arr xs))
    (hloop : (insertLoop w 0 xs 0 0).2 = .ok (sc, ec)) :
    sc + ec = xs.length ∧
      summary w (toString xs.length) sc ec <:+ (seedDatabase w).1 ∧
      (∀ (v : World) (ys : List Json), (∀ user ∈ ys, succeeds (usernameText user) = true) →
        ∃ sc1 ec1, (insertLoop v 0 ys 0 0).2 = .ok (sc1, ec1)) := by
  refine ⟨?_, ?_, fun v ys h => (insertLoop_puts v ys h 0 0 0).2⟩
  · simpa using insertLoop_counters w xs 0 0 0 sc ec hloop
  · rw [seedDatabase_of_array w xs hscan hfile, hloop]
    exact List.suffix_append _ _

theorem counters_add_up_witness :
    (insertLoop partialFailureWorld 0 [alice, bob] 0 0).2 = .ok (1, 1) ∧
      1 + 1 = [alice, bob].length :=
  ⟨rfl, (counters_add_up partialFailureWorld [alice, bob] 1 1 rfl rfl rfl).1⟩

/-- C4, amended. When the table exists and the seed file is an array of
records whose user names convert to strings, the process exits with code 0
whatever the outcomes of the inserts.  In every run, the exit code is 1
only when `checkTableExists` has answered `false` or `seedDatabase` has
thrown, which includes a probe or a file load that throws. -/
theorem exitCode_policy (w : World) (xs : List Json)
    (hscan : w.scanOutcome = none) (hfile : w.seedFile = .ok (.arr xs))
    (hname : ∀ user ∈ xs, succeeds (usernameText user) = true) :
    (main w).exitCode = 0 ∧
      (∀ v : World, (main v).exitCode = 1 →
        (checkTableExists v).2 = .ok false ∨ ∃ e, (seedDatabase v).2 = .threw e) := by
  refine ⟨?_, exitCode_one_cases⟩
  obtain ⟨sc, ec, hloop⟩ := (insertLoop_puts w xs hname 0 0 0).2
  rw [exitCode_of_array w xs hscan hfile, hloop]
  rfl

theorem exitCode_policy_witness :
    allRejectedWorld.putOutcome 0 = some validationException ∧
      allRejectedWorld.putOutcome 1 = some validationException ∧
      (main allRejectedWorld).exitCode = 0 :=
  ⟨rfl, rfl, (exitCode_policy allRejectedWorld [alice, bob] rfl rfl (by decide)).1⟩

/-- C4 as stated fails: the table exists and the seed file loads as the
array `[null]`, yet the process exits with code 1.  Reading
`user.username` of `null` throws inside the `catch` block of the loop. -/
theorem exitCode_one_for_null_record :
    nullRecordWorld.scanOutcome = none ∧
      nullRecordWorld.seedFile = .ok (.arr [.null]) ∧
      (main nullRecordWorld).exitCode = 1 :=
  ⟨rfl, rfl, rfl⟩

/-- C6. With the remote table modelled as insert-or-replace by key and the
same outcomes in both runs, running the script twice leaves the table with
the contents it has after running it once, for every initial table, every
key schema and every world. -/
theorem tableAfterRun_idempotent {κ : Type} [DecidableEq κ] (keyOf : Json → κ) (w : World)
    (table : Table κ) :
    tableAfterRun keyOf w (tableAfterRun keyOf w table) = tableAfterRun keyOf w table := by
  unfold tableAfterRun
  exact foldl_insertOrReplace_twice keyOf _ table

/-- C10, amended. When the table exists and the seed file is an array of
records whose user names and emails convert to strings, the loop completes
with `successCount` the number of records whose insert resolved and
`errorCount` the number of records whose insert was rejected; the summary
reports these numbers with the number of records as total, and the banner
of line 120 is printed exactly when `successCount` is positive. -/
theorem summary_counts (w : World) (xs : List Json)
    (hscan : w.scanOutcome = none) (hfile : w.seedFile = .ok (.arr xs))
    (hprint : ∀ user ∈ xs,
      succeeds (usernameText user) = true ∧ succeeds (emailText user) = true) :
    (insertLoop w 0 xs 0 0).2 = .ok (resolvedCount w xs.length, rejectedCount w xs.length) ∧
      summary w (toString xs.length) (resolvedCount w xs.length) (rejectedCount w xs.length)
        <:+ (seedDatabase w).1 ∧
      (seededBanner ∈ (main w).trace ↔ 0 < resolvedCount w xs.length) := by
  have hloop : (insertLoop w 0 xs 0 0).2 =
      .ok (resolvedCount w xs.length, rejectedCount w xs.length) := by
    rw [insertLoop_of_printable w xs hprint 0 0 0]
    simp [resolvedCount, rejectedCount, List.range_eq_range']
  refine ⟨hloop, ?_, seededBanner_mem_main w xs _ _ hscan hfile hloop⟩
  rw [seedDatabase_of_array w xs hscan hfile, hloop]
  exact List.suffix_append _ _

/-- The scenario of the specification: two records, both inserts resolve;
the summary reports total 2, succeeded 2, failed 0. -/
theorem summary_counts_witness :
    (insertLoop scenarioWorld 0 [alice, bob] 0 0).2 = .ok (2, 0) ∧
      summary scenarioWorld "2" 2 0 <:+ (seedDatabase scenarioWorld).1 ∧
      (seededBanner ∈ (main scenarioWorld).trace ↔ 0 < 2) :=
  summary_counts scenarioWorld [alice, bob] rfl rfl (by decide)

/-- C10 as stated fails: the insert of the only record resolves, yet the
loop ends with `successCount = 0` and `errorCount = 1` when the email of the
record is an object with an own property `toString`.  Building the log line
of line 102 throws after the insert, inside `try`, and the `catch` block
counts the record as failed. -/
theorem successCount_misses_resolved_insert :
    unprintableEmailWorld.seedFile = .ok (.arr [carol]) ∧
      unprintableEmailWorld.putOutcome 0 = none ∧
      storedBy (main unprintableEmailWorld).trace = [carol] ∧
      resolvedCount unprintableEmailWorld 1 = 1 ∧
      (insertLoop unprintableEmailWorld 0 [carol] 0 0).2 = .ok (0, 1) :=
  ⟨rfl, rfl, rfl, rfl, rfl⟩

end SeedDatabase
